import Mathlib

/-!
Shallow embedding of `src/historical_weather.py` (a NOAA historical-weather
CSV query script).  Python floats are modelled as exact rationals (`ℚ`);
Python's `None`-returning failure of `float_catch` is `Option.none`; a
computation that either returns normally, echoes an error message and
returns early, or raises an uncaught exception is modelled by `Outcome`.
The CSV file is modelled as its list of rows (each row a list of string
fields), i.e. after the `csv.reader` stage, which is not itself under test.
-/

/-- Result of running a piece of the Python program: a normal value,
an explicitly reported error (a `click.echo(..., err=True)` followed by an
early `return`), or an uncaught exception propagating out (`crash`). -/
inductive Outcome (α : Type) where
  | ok : α → Outcome α
  | error : String → Outcome α
  | crash : String → Outcome α
deriving DecidableEq, Repr

/-- Sequencing of Python statements: an error report or an uncaught
exception aborts the rest of the computation. -/
def Outcome.bind {α β : Type} : Outcome α → (α → Outcome β) → Outcome β
  | .ok a, f => f a
  | .error e, _ => .error e
  | .crash e, _ => .crash e

/-- Numeric value of a list of decimal digit characters (most significant
first); used by the embedded `int()` and `float()` parsers. -/
def digitsVal (cs : List Char) : ℕ :=
  cs.foldl (fun acc c => 10 * acc + (c.toNat - '0'.toNat)) 0

/-- Characters Python's numeric constructors strip from both ends. -/
def isPySpace (c : Char) : Bool :=
  c = ' ' ∨ c = '\t' ∨ c = '\n' ∨ c = '\r'

/-- Embedded Python `int(s)`: after stripping surrounding whitespace, an
optional sign followed by one or more decimal digits.  (Python's digit
grouping underscores are not modelled; the script only feeds it
`YYYY-MM-DD` components.)  `none` models the raised `ValueError`. -/
def pyInt (s : String) : Option ℤ :=
  match (s.data.dropWhile isPySpace).reverse.dropWhile isPySpace |>.reverse with
  | [] => none
  | '+' :: rest => if rest ≠ [] ∧ rest.all Char.isDigit then some (digitsVal rest) else none
  | '-' :: rest => if rest ≠ [] ∧ rest.all Char.isDigit then some (-(digitsVal rest : ℤ)) else none
  | cs => if cs.all Char.isDigit then some (digitsVal cs) else none

/-- Exponent suffix of a float literal: empty, or `e`/`E`, an optional
sign, and one or more digits, consuming the whole remainder. -/
def parseExpPart : List Char → Option ℤ
  | [] => some 0
  | 'e' :: rest =>
      match rest with
      | '+' :: ds => if ds ≠ [] ∧ ds.all Char.isDigit then some (digitsVal ds) else none
      | '-' :: ds => if ds ≠ [] ∧ ds.all Char.isDigit then some (-(digitsVal ds : ℤ)) else none
      | ds => if ds ≠ [] ∧ ds.all Char.isDigit then some (digitsVal ds) else none
  | 'E' :: rest =>
      match rest with
      | '+' :: ds => if ds ≠ [] ∧ ds.all Char.isDigit then some (digitsVal ds) else none
      | '-' :: ds => if ds ≠ [] ∧ ds.all Char.isDigit then some (-(digitsVal ds : ℤ)) else none
      | ds => if ds ≠ [] ∧ ds.all Char.isDigit then some (digitsVal ds) else none
  | _ => none

/-- Unsigned decimal float literal: `digits [. digits] [exp]` or
`. digits [exp]`, with at least one digit overall. -/
def parseUnsigned (cs : List Char) : Option ℚ :=
  let ip := cs.takeWhile Char.isDigit
  let rest := cs.dropWhile Char.isDigit
  match rest with
  | '.' :: rest2 =>
      let fp := rest2.takeWhile Char.isDigit
      let rest3 := rest2.dropWhile Char.isDigit
      if ip = [] ∧ fp = [] then none
      else
        match parseExpPart rest3 with
        | some e =>
            some (((digitsVal ip : ℚ) + (digitsVal fp : ℚ) / (10 : ℚ) ^ fp.length) * (10 : ℚ) ^ e)
        | none => none
  | _ =>
      if ip = [] then none
      else
        match parseExpPart rest with
        | some e => some ((digitsVal ip : ℚ) * (10 : ℚ) ^ e)
        | none => none

/-- Embedded Python `float(s)` restricted to decimal literals: surrounding
whitespace stripped, optional sign, then an unsigned decimal literal with
optional fraction and exponent.  Python additionally accepts `inf`/`nan`
spellings, which are not representable in `ℚ` and never produced by the
weather CSV's numeric columns; they are outside this model.  `none` models
the raised `ValueError`. -/
def pyFloat (s : String) : Option ℚ :=
  match (s.data.dropWhile isPySpace).reverse.dropWhile isPySpace |>.reverse with
  | '+' :: rest => parseUnsigned rest
  | '-' :: rest => (parseUnsigned rest).map Neg.neg
  | cs => parseUnsigned cs

/-- `float_catch` from the source: empty string maps to `0.0`; otherwise
`float(string)`, with the `ValueError` caught, logged, and turned into the
sentinel `None` (here `none`). -/
def float_catch (s : String) : Option ℚ :=
  if s.length = 0 then some 0 else pyFloat s

/-- A proleptic Gregorian calendar date as held by `datetime.date`. -/
structure CalDate where
  year : ℤ
  month : ℤ
  day : ℤ
deriving DecidableEq, Repr

/-- Gregorian leap-year rule used by `datetime.date`. -/
def isLeap (y : ℤ) : Bool := y % 4 = 0 ∧ (y % 100 ≠ 0 ∨ y % 400 = 0)

/-- Number of days of month `m` of year `y`. -/
def daysInMonth (y m : ℤ) : ℤ :=
  if m = 2 then (if isLeap y then 29 else 28)
  else if m = 4 ∨ m = 6 ∨ m = 9 ∨ m = 11 then 30
  else 31

/-- Embedded `datetime.date(y, m, d)`: `none` models the `ValueError`
raised for out-of-range components (`datetime.MINYEAR = 1`,
`datetime.MAXYEAR = 9999`). -/
def mkDate (y m d : ℤ) : Option CalDate :=
  if 1 ≤ y ∧ y ≤ 9999 ∧ 1 ≤ m ∧ m ≤ 12 ∧ 1 ≤ d ∧ d ≤ daysInMonth y m
  then some ⟨y, m, d⟩ else none

/-- Python `s.split(sep)` for a one-character separator, on the character
list: every occurrence of the separator ends a group, so consecutive or
trailing separators produce empty groups, and splitting the empty string
gives `[[]]` (Python's `[""]`). -/
def splitOnSep (sep : Char) : List Char → List (List Char)
  | [] => [[]]
  | c :: rest =>
      if c = sep then [] :: splitOnSep sep rest
      else
        match splitOnSep sep rest with
        | [] => [[c]]
        | g :: gs => (c :: g) :: gs

/-- DATE-field parsing from `read_file`: split on `-`, convert every
component with `int`, call `date(*ymd)`.  A non-numeric component
(`ValueError` from `int`), a component count other than three
(`TypeError` from the starred call), and an invalid calendar date
(`ValueError` from `date`) are all caught by the
`except (ValueError, TypeError)` clause, so they all yield `none`. -/
def parseDateField (s : String) : Option CalDate :=
  match ((splitOnSep '-' s.data).map String.mk).mapM pyInt with
  | none => none
  | some ints =>
      match ints with
      | [y, m, d] => mkDate y m d
      | _ => none

/-- The source's `Date` class: one city-day observation. -/
structure Date where
  date : CalDate
  precipitation : ℚ
  snowfall : ℚ
  max_temp : ℚ
  min_temp : ℚ
deriving DecidableEq, Repr

/-- `Date.temp_delta` from the source. -/
def Date.temp_delta (d : Date) : ℚ := d.max_temp - d.min_temp

/-- `Date.total_precipitation` from the source. -/
def Date.total_precipitation (d : Date) : ℚ := d.precipitation + d.snowfall

/-! ## CSV ingestion (`read_file`) -/

/-- The six required headers, in the insertion order of the source's
`data_pos` dict. -/
def requiredHeaders : List String :=
  ["NAME", "DATE", "PRCP", "SNOW", "TMAX", "TMIN"]

/-- `data_pos[h]` after the header scan: the loop
`for n, header in enumerate(headers)` overwrites on every match, so a
repeated header keeps its **last** column index; an absent header keeps
the initial `-1`. -/
def lastIdx (headers : List String) (h : String) : ℤ :=
  headers.enum.foldl (fun acc p => if p.2 = h then (p.1 : ℤ) else acc) (-1)

/-- Python tuple-unpacking `(header, pos) = s` of a string `s` binds its
characters; it raises `ValueError` unless `s` has exactly two
characters. -/
def unpack2 (s : String) : Outcome (Char × Char) :=
  match s.data with
  | [a, b] => .ok (a, b)
  | _ => .crash "ValueError: too many values to unpack"

/-- The comprehension
`[header for (header, pos) in data_pos if pos == -1]` of the
missing-column message.  Iterating a dict yields its **keys** (strings
such as `"NAME"`), so each step tuple-unpacks a string; the guard
`pos == -1` compares a character with an integer, which in Python is
always `False`. -/
def missingHeadersComp : List String → Outcome (List String)
  | [] => .ok []
  | k :: rest =>
      (unpack2 k).bind fun hp =>
        (missingHeadersComp rest).bind fun tl =>
          if (hp.2 : Char) = hp.2 ∧ False then .ok (k :: tl) else .ok tl

/-- `row[i]` for a nonnegative index: `IndexError` when out of range.
Every call site passes a column index recorded from the header row, hence
nonnegative. -/
def getField (row : List String) (i : ℕ) : Outcome String :=
  match row.get? i with
  | some s => .ok s
  | none => .crash "IndexError: list index out of range"

/-- City-key normalization of the NAME field:
`row[...].split(" ")[0].lower().replace(",", "")` — first
space-delimited token, lowercased, with every comma removed. -/
def normName (s : String) : String :=
  String.mk ((((splitOnSep ' ' s.data).headD []).map Char.toLower).filter
    (fun c => c ≠ ','))

/-- The dataset under construction: a Python dict from city key to list of
records, modelled as an insertion-ordered association list with distinct
keys. -/
abbrev CityData := List (String × List Date)

/-- Python `name in data`. -/
def dcontains (d : CityData) (k : String) : Bool :=
  d.any (fun p => p.1 = k)

/-- `if name not in data: data[name] = []`. -/
def insertName (d : CityData) (k : String) : CityData :=
  if dcontains d k then d else d ++ [(k, [])]

/-- `data[name].append(r)`: extends the sequence of every entry whose key
is `k` (keys are distinct, so at most one). -/
def dappend (d : CityData) (k : String) (r : Date) : CityData :=
  d.map (fun p => if p.1 = k then (p.1, p.2 ++ [r]) else p)

/-- Body of the `for n, row in enumerate(reader)` loop for one data row,
given the six column indices.  Field accesses happen in source order
(NAME; the city entry is created; DATE; then PRCP, SNOW, TMAX, TMIN — all
four are read and parsed before the `None` check).  A date or numeric
parse failure logs a diagnostic and `continue`s, leaving the dataset with
no new record; an out-of-range field access raises `IndexError`, which no
handler catches. -/
def processRow (pN pD pP pS pX pI : ℕ) (data : CityData) (row : List String) :
    Outcome CityData :=
  (getField row pN).bind fun rawName =>
  let name := normName rawName
  let data1 := insertName data name
  (getField row pD).bind fun rawDate =>
  match parseDateField rawDate with
  | none => .ok data1
  | some day =>
      (getField row pP).bind fun fP =>
      (getField row pS).bind fun fS =>
      (getField row pX).bind fun fX =>
      (getField row pI).bind fun fI =>
      match float_catch fP, float_catch fS, float_catch fX, float_catch fI with
      | some pv, some sv, some xv, some iv =>
          .ok (dappend data1 name ⟨day, pv, sv, xv, iv⟩)
      | _, _, _, _ => .ok data1

/-- The row loop, left to right over the data rows. -/
def processRows (pN pD pP pS pX pI : ℕ) (data : CityData) :
    List (List String) → Outcome CityData
  | [] => .ok data
  | row :: rest =>
      (processRow pN pD pP pS pX pI data row).bind fun d2 =>
        processRows pN pD pP pS pX pI d2 rest

/-- `read_file`, over the list of CSV rows (header row first).
`reader.__next__()` on an empty file raises `StopIteration`.  When a
required header is absent the source tries to echo a `MissingColumns`
message and return `None` (here `Outcome.error`), but building the
message crashes: see `missingHeadersComp`. -/
def read_file (rows : List (List String)) : Outcome CityData :=
  match rows with
  | [] => .crash "StopIteration"
  | headers :: body =>
      if requiredHeaders.any (fun h => lastIdx headers h = -1) then
        (missingHeadersComp requiredHeaders).bind fun missing =>
          .error ("Improperly formatted CSV. Missing " ++ String.intercalate ", " missing)
      else
        processRows (lastIdx headers "NAME").toNat (lastIdx headers "DATE").toNat
          (lastIdx headers "PRCP").toNat (lastIdx headers "SNOW").toNat
          (lastIdx headers "TMAX").toNat (lastIdx headers "TMIN").toNat [] body

/-! ## Query: days of precipitation -/

/-- One step of the `year_days` accumulation:
`if d.year not in year_days: year_days[d.year] = 0` then
`year_days[d.year] += 1`. -/
def bump (t : List (ℤ × ℕ)) (y : ℤ) : List (ℤ × ℕ) :=
  if t.any (fun p => p.1 = y) then
    t.map (fun p => if p.1 = y then (p.1, p.2 + 1) else p)
  else t ++ [(y, 1)]

/-- The `year_days` dict: per-year counts of the given year list, keys in
first-occurrence order. -/
def tally (ys : List ℤ) : List (ℤ × ℕ) := ys.foldl bump []

/-- Core of the `days_of_precip` command (after city selection): filter to
records with positive total precipitation, tally their dates by year, and
return `sum(year_days.values()) / len(year_days.keys())`.  With no
positive-precipitation record the dict is empty and the division raises
`ZeroDivisionError`, which no handler catches. -/
def days_of_precip (records : List Date) : Outcome ℚ :=
  let dates_with_precip :=
    (records.filter (fun d => 0 < d.total_precipitation)).map (fun d => d.date)
  let year_days := tally (dates_with_precip.map (fun d => d.year))
  if year_days.length = 0 then .crash "ZeroDivisionError: division by zero"
  else .ok (((year_days.map (fun p => p.2)).sum : ℚ) / (year_days.length : ℚ))

/-! ## Query: max temperature delta -/

/-- Python `x == year` for an `int` `x` and an optional `year`: comparing
with `None` is `False`. -/
def pyEqInt (x : ℤ) (o : Option ℤ) : Bool :=
  match o with
  | some y => x = y
  | none => false

/-- The `tdeltas` list of the `max_temp_delta` command: the three-way
`if month is not None / elif year is not None / else` filter, each branch
a comprehension producing `(d.date, d.temp_delta())`. -/
def tdeltasOf (records : List Date) (year month : Option ℤ) :
    List (CalDate × ℚ) :=
  match month with
  | some m =>
      ((records.filter (fun d => d.date.month = m ∧ pyEqInt d.date.year year)).map
        (fun d => (d.date, d.temp_delta)))
  | none =>
      match year with
      | some y =>
          ((records.filter (fun d => d.date.year = y)).map
            (fun d => (d.date, d.temp_delta)))
      | none => records.map (fun d => (d.date, d.temp_delta))

/-- One comparison step of Python `max(l, key=operator.itemgetter(1))`:
the current best is replaced only when the candidate's key is strictly
larger. -/
def pyMaxStep (best y : CalDate × ℚ) : CalDate × ℚ :=
  if best.2 < y.2 then y else best

/-- Python `max(l, key=operator.itemgetter(1))`: scan left to right with
`pyMaxStep`, so the first maximum wins; `none` models the `ValueError`
raised on an empty `l`. -/
def pyMaxBySnd : List (CalDate × ℚ) → Option (CalDate × ℚ)
  | [] => none
  | x :: xs => some (xs.foldl pyMaxStep x)

/-- Round half to even (banker's rounding), as Python's `round`. -/
def roundHalfEven (q : ℚ) : ℤ :=
  if q - ⌊q⌋ < 1 / 2 then ⌊q⌋
  else if 1 / 2 < q - ⌊q⌋ then ⌊q⌋ + 1
  else if ⌊q⌋ % 2 = 0 then ⌊q⌋ else ⌊q⌋ + 1

/-- `round(x, 14)` on the rational model of floats. -/
def roundTo14 (q : ℚ) : ℚ :=
  (roundHalfEven (q * 10 ^ 14) : ℚ) / 10 ^ 14

/-- The selection-and-output stage of `max_temp_delta`:
`max(tdeltas, key=operator.itemgetter(1))` — a `ValueError` crash when
the list is empty — then the date paired with the delta rounded to 14
decimal digits. -/
def maxStage (tdeltas : List (CalDate × ℚ)) : Outcome (CalDate × ℚ) :=
  match pyMaxBySnd tdeltas with
  | none => .crash "ValueError: max arg is an empty sequence"
  | some p => .ok (p.1, roundTo14 p.2)

/-- Core of the `max_temp_delta` command (after city selection and CLI
validation): build `tdeltas`, then select and round. -/
def max_temp_delta (records : List Date) (year month : Option ℤ) :
    Outcome (CalDate × ℚ) :=
  maxStage (tdeltasOf records year month)

/-! ## Theorems -/

/-- C1: whenever the header row lacks at least one required header,
`read_file` does not report the missing headers: building the
missing-column message tuple-unpacks the dict's keys and raises an
uncaught `ValueError`, so ingestion crashes (and in particular returns no
partial dataset). -/
theorem read_file_missing_header_crash (headers : List String)
    (body : List (List String))
    (h : requiredHeaders.any (fun hd => lastIdx headers hd = -1) = true) :
    read_file (headers :: body) =
      Outcome.crash "ValueError: too many values to unpack" := by
  simp only [read_file, h, if_true]
  rfl

/-- Witness for `read_file_missing_header_crash`: a CSV whose header row
lacks `TMAX`. -/
theorem read_file_missing_header_crash_witness :
    read_file [["NAME", "DATE", "PRCP", "SNOW", "TMIN"],
               ["BOSTON, MA US", "2015-01-01", "0.1", "0", "40"]] =
      Outcome.crash "ValueError: too many values to unpack" :=
  read_file_missing_header_crash ["NAME", "DATE", "PRCP", "SNOW", "TMIN"]
    [["BOSTON, MA US", "2015-01-01", "0.1", "0", "40"]] (by decide)

/-- C2: when the year/month filter leaves no record, `max_temp_delta`
does not report an explicit error outcome: `max` raises an uncaught
`ValueError`, i.e. the program crashes (it returns no sentinel either). -/
theorem max_temp_delta_empty_crash (records : List Date)
    (year month : Option ℤ) (h : tdeltasOf records year month = []) :
    max_temp_delta records year month =
      Outcome.crash "ValueError: max arg is an empty sequence" := by
  simp [max_temp_delta, maxStage, h, pyMaxBySnd]

/-- Witness for `max_temp_delta_empty_crash`: no records at all. -/
theorem max_temp_delta_empty_crash_witness :
    max_temp_delta [] none none =
      Outcome.crash "ValueError: max arg is an empty sequence" :=
  max_temp_delta_empty_crash [] none none (by decide)

/-- C3: when no record has positive total precipitation, `days_of_precip`
does not report an explicit error outcome: the division raises an
uncaught `ZeroDivisionError`, i.e. the program crashes (it returns no
coerced default value either). -/
theorem days_of_precip_no_precip_crash (records : List Date)
    (h : records.filter (fun d => 0 < d.total_precipitation) = []) :
    days_of_precip records =
      Outcome.crash "ZeroDivisionError: division by zero" := by
  simp [days_of_precip, h, tally]

/-- Witness for `days_of_precip_no_precip_crash`: a dry record only. -/
theorem days_of_precip_no_precip_crash_witness :
    days_of_precip [⟨⟨2015, 1, 1⟩, 0, 0, 5, 1⟩] =
      Outcome.crash "ZeroDivisionError: division by zero" :=
  days_of_precip_no_precip_crash [⟨⟨2015, 1, 1⟩, 0, 0, 5, 1⟩]
    (by simp [Date.total_precipitation])

/-- C10: a data row with fewer fields than a required column's index
makes `read_file` raise an uncaught `IndexError`: here all six headers
are present (`TMIN` at index 5) but the row has a single field, so the
DATE access `row[1]` is already out of range. -/
theorem read_file_short_row_crash :
    read_file [["NAME", "DATE", "PRCP", "SNOW", "TMAX", "TMIN"],
               ["BOSTON, MA US"]] =
      Outcome.crash "IndexError: list index out of range" := by rfl

/-- A nonempty string has nonzero length. -/
theorem length_ne_zero_of_ne_empty (s : String) (h : s ≠ "") :
    ¬ s.length = 0 := by
  intro h0
  apply h
  cases s with
  | mk data =>
    cases data with
    | nil => rfl
    | cons c cs => simp [String.length] at h0

/-- C8: `float_catch` maps the empty string to exactly `0.0`; a non-empty
string that is a valid decimal literal to its float value; and a
non-numeric non-empty string to the `None` failure, never a number. -/
theorem float_catch_spec :
    float_catch "" = some 0
      ∧ (∀ s : String, s ≠ "" → ∀ q : ℚ, pyFloat s = some q →
          float_catch s = some q)
      ∧ (∀ s : String, s ≠ "" → pyFloat s = none → float_catch s = none) := by
  refine ⟨rfl, ?_, ?_⟩
  · intro s hs q hq
    unfold float_catch
    rw [if_neg (length_ne_zero_of_ne_empty s hs)]
    exact hq
  · intro s hs hq
    unfold float_catch
    rw [if_neg (length_ne_zero_of_ne_empty s hs)]
    exact hq

/-- Witness for `float_catch_spec`: the literal `"17.25"` parses to
`69/4` and `"nope"` fails. -/
theorem float_catch_spec_witness :
    float_catch "17.25" = some (69 / 4) ∧ float_catch "nope" = none :=
  ⟨float_catch_spec.2.1 "17.25" (by decide) (69 / 4)
      (by
        simp +decide [pyFloat, parseUnsigned, parseExpPart, digitsVal,
          isPySpace, List.dropWhile, List.takeWhile]
        norm_num),
   float_catch_spec.2.2 "nope" (by decide) (by rfl)⟩

/-- C4: a row whose DATE field fails to parse, or one of whose four
numeric fields fails to parse, produces no `Date` record: `processRow`
returns normally with the dataset unchanged except for the (possibly new,
empty) city entry, so ingestion continues; and in a full ingestion all
other valid rows still appear (third conjunct: a CSV with one bad-date
row and one bad-numeric row keeps exactly the two valid records). -/
theorem read_file_row_failures_skip :
    (∀ (pN pD pP pS pX pI : ℕ) (data : CityData) (row : List String)
        (rawName rawDate : String),
        getField row pN = Outcome.ok rawName →
        getField row pD = Outcome.ok rawDate →
        parseDateField rawDate = none →
        processRow pN pD pP pS pX pI data row =
          Outcome.ok (insertName data (normName rawName)))
      ∧ (∀ (pN pD pP pS pX pI : ℕ) (data : CityData) (row : List String)
          (rawName rawDate fP fS fX fI : String) (day : CalDate),
          getField row pN = Outcome.ok rawName →
          getField row pD = Outcome.ok rawDate →
          parseDateField rawDate = some day →
          getField row pP = Outcome.ok fP →
          getField row pS = Outcome.ok fS →
          getField row pX = Outcome.ok fX →
          getField row pI = Outcome.ok fI →
          (float_catch fP = none ∨ float_catch fS = none ∨
            float_catch fX = none ∨ float_catch fI = none) →
          processRow pN pD pP pS pX pI data row =
            Outcome.ok (insertName data (normName rawName)))
      ∧ read_file
          [["NAME", "DATE", "PRCP", "SNOW", "TMAX", "TMIN"],
           ["BOSTON, MA US", "2015-01-01", "", "", "", ""],
           ["BOSTON, MA US", "2015-13-40", "", "", "", ""],
           ["JUNEAU AIRPORT, AK US", "2015-01-02", "x", "", "", ""],
           ["BOSTON, MA US", "2015-01-03", "", "", "", ""]] =
          Outcome.ok
            [("boston", [⟨⟨2015, 1, 1⟩, 0, 0, 0, 0⟩,
                         ⟨⟨2015, 1, 3⟩, 0, 0, 0, 0⟩]),
             ("juneau", [])] := by
  refine ⟨?_, ?_, by rfl⟩
  · intro pN pD pP pS pX pI data row rawName rawDate hN hD hdate
    simp [processRow, hN, hD, hdate, Outcome.bind]
  · intro pN pD pP pS pX pI data row rawName rawDate fP fS fX fI day
      hN hD hdate hP hS hX hI hfail
    simp only [processRow, hN, hD, hdate, hP, hS, hX, hI, Outcome.bind]
    rcases h1 : float_catch fP with _ | v1 <;>
      rcases h2 : float_catch fS with _ | v2 <;>
        rcases h3 : float_catch fX with _ | v3 <;>
          rcases h4 : float_catch fI with _ | v4 <;>
            simp_all

/-- Witness for `read_file_row_failures_skip`: a row with the invalid
date `2015-13-40` is skipped, leaving only the empty city entry. -/
theorem read_file_row_failures_skip_witness :
    processRow 0 1 2 3 4 5 []
        ["BOSTON, MA US", "2015-13-40", "0.1", "0", "40", "30"] =
      Outcome.ok [("boston", [])] :=
  read_file_row_failures_skip.1 0 1 2 3 4 5 []
    ["BOSTON, MA US", "2015-13-40", "0.1", "0", "40", "30"]
    "BOSTON, MA US" "2015-13-40" (by rfl) (by rfl) (by rfl)

/-- `data[name].append(...)` changes no keys. -/
theorem dappend_keys (d : CityData) (k : String) (r : Date) :
    (dappend d k r).map Prod.fst = d.map Prod.fst := by
  induction d with
  | nil => rfl
  | cons p t ih =>
      simp only [dappend, List.map_cons] at *
      by_cases hp : p.1 = k
      · simp [hp, ih]
      · simp [hp, ih]

/-- C9 counterexample: a CSV whose single data row names `boston` but has
an unparseable date yields a dataset in which the key `boston` is present
and maps to the empty sequence — the sequence is created before the row
is parsed, so a present key need not hold any record. -/
theorem city_key_empty_seq_cex :
    read_file [["NAME", "DATE", "PRCP", "SNOW", "TMAX", "TMIN"],
               ["BOSTON, MA US", "2015-13-40", "", "", "", ""]] =
      Outcome.ok [("boston", [])]
      ∧ ¬ (∀ d : CityData,
            read_file [["NAME", "DATE", "PRCP", "SNOW", "TMAX", "TMIN"],
                       ["BOSTON, MA US", "2015-13-40", "", "", "", ""]] =
              Outcome.ok d → ∀ p ∈ d, p.2 ≠ []) := by
  refine ⟨by rfl, fun h => ?_⟩
  exact h [("boston", [])] (by rfl) ("boston", []) (by simp) rfl

/-- C9 amended: the city's (possibly empty) sequence is created at the
first occurrence of the city key in any data row, before date and numeric
parsing: whenever `processRow` returns normally, the keys of the result
are exactly the old keys extended with the row's normalized name if it is
new — whether or not the row produced a record. -/
theorem read_file_city_key_created_at_first_row
    (pN pD pP pS pX pI : ℕ) (data : CityData) (row : List String)
    (rawName : String) (hN : getField row pN = Outcome.ok rawName)
    (d2 : CityData)
    (h : processRow pN pD pP pS pX pI data row = Outcome.ok d2) :
    d2.map Prod.fst = (insertName data (normName rawName)).map Prod.fst := by
  cases hD : getField row pD with
  | error e => simp [processRow, hN, hD, Outcome.bind] at h
  | crash e => simp [processRow, hN, hD, Outcome.bind] at h
  | ok rawDate =>
      cases hdate : parseDateField rawDate with
      | none =>
          simp only [processRow, hN, hD, hdate, Outcome.bind,
            Outcome.ok.injEq] at h
          rw [← h]
      | some day =>
          cases hP : getField row pP with
          | error e => simp [processRow, hN, hD, hdate, hP, Outcome.bind] at h
          | crash e => simp [processRow, hN, hD, hdate, hP, Outcome.bind] at h
          | ok fP =>
              cases hS : getField row pS with
              | error e =>
                  simp [processRow, hN, hD, hdate, hP, hS, Outcome.bind] at h
              | crash e =>
                  simp [processRow, hN, hD, hdate, hP, hS, Outcome.bind] at h
              | ok fS =>
                  cases hX : getField row pX with
                  | error e =>
                      simp [processRow, hN, hD, hdate, hP, hS, hX,
                        Outcome.bind] at h
                  | crash e =>
                      simp [processRow, hN, hD, hdate, hP, hS, hX,
                        Outcome.bind] at h
                  | ok fX =>
                      cases hI : getField row pI with
                      | error e =>
                          simp [processRow, hN, hD, hdate, hP, hS, hX, hI,
                            Outcome.bind] at h
                      | crash e =>
                          simp [processRow, hN, hD, hdate, hP, hS, hX, hI,
                            Outcome.bind] at h
                      | ok fI =>
                          rcases h1 : float_catch fP with _ | v1 <;>
                            rcases h2 : float_catch fS with _ | v2 <;>
                              rcases h3 : float_catch fX with _ | v3 <;>
                                rcases h4 : float_catch fI with _ | v4 <;>
                                  simp only [processRow, hN, hD, hdate, hP,
                                    hS, hX, hI, h1, h2, h3, h4, Outcome.bind,
                                    Outcome.ok.injEq] at h <;>
                                  rw [← h] <;>
                                  first
                                    | rfl
                                    | exact dappend_keys
                                        (insertName data (normName rawName))
                                        (normName rawName) _

/-- Witness for `read_file_city_key_created_at_first_row`: the skipped
bad-date row still creates the `boston` entry. -/
theorem read_file_city_key_created_at_first_row_witness :
    ([("boston", ([] : List Date))].map Prod.fst) =
      ((insertName [] (normName "BOSTON, MA US")).map Prod.fst) :=
  read_file_city_key_created_at_first_row 0 1 2 3 4 5 []
    ["BOSTON, MA US", "2015-13-40", "", "", "", ""] "BOSTON, MA US" (by rfl)
    [("boston", [])] (by rfl)

/-- C7: the filtering of `max_temp_delta` obeys the year/month rule: with
neither filter every record feeds the max stage; with only a year,
exactly the records of that year; with both, exactly the records of that
year and month. -/
theorem max_temp_delta_filter_rule (records : List Date) :
    max_temp_delta records none none =
      maxStage (records.map (fun d => (d.date, d.temp_delta)))
      ∧ (∀ y : ℤ, max_temp_delta records (some y) none =
          maxStage ((records.filter (fun d => d.date.year = y)).map
            (fun d => (d.date, d.temp_delta))))
      ∧ (∀ y m : ℤ, max_temp_delta records (some y) (some m) =
          maxStage ((records.filter
              (fun d => d.date.year = y ∧ d.date.month = m)).map
            (fun d => (d.date, d.temp_delta)))) := by
  refine ⟨rfl, fun y => rfl, fun y m => ?_⟩
  have hf : records.filter
        (fun d => decide (d.date.month = m) && pyEqInt d.date.year (some y)) =
      records.filter
        (fun d => decide (d.date.year = y) && decide (d.date.month = m)) :=
    List.filter_congr (fun d _ => by simp [pyEqInt, Bool.and_comm])
  simp [max_temp_delta, tdeltasOf, hf]

/-- The left fold of `pyMaxStep` over `xs` starting from `acc` returns
the first element of `acc :: xs` with maximal second component: every
element strictly before it in the scan is strictly smaller, every element
after it is at most it. -/
theorem foldl_pyMaxStep_first (xs : List (CalDate × ℚ)) (acc : CalDate × ℚ) :
    ∃ l1 l2,
      acc :: xs = l1 ++ (xs.foldl pyMaxStep acc) :: l2
        ∧ (∀ q ∈ l1, q.2 < (xs.foldl pyMaxStep acc).2)
        ∧ (∀ q ∈ l2, q.2 ≤ (xs.foldl pyMaxStep acc).2) := by
  induction xs generalizing acc with
  | nil => exact ⟨[], [], rfl, by simp, by simp⟩
  | cons y ys ih =>
      by_cases hy : acc.2 < y.2
      · have hstep : (y :: ys).foldl pyMaxStep acc = ys.foldl pyMaxStep y := by
          simp [pyMaxStep, if_pos hy]
        obtain ⟨l1, l2, hdec, hlt, hle⟩ := ih y
        have hyr : y.2 ≤ (ys.foldl pyMaxStep y).2 := by
          cases l1 with
          | nil =>
              have hr : y = ys.foldl pyMaxStep y := by
                simpa using congrArg (fun l => l.headD y) hdec
              rw [← hr]
          | cons a l1t =>
              have ha : y = a := by
                simpa using congrArg (fun l => l.headD y) hdec
              have h1 : a.2 < (ys.foldl pyMaxStep y).2 := hlt a (by simp)
              rw [← ha] at h1
              exact le_of_lt h1
        rw [hstep]
        refine ⟨acc :: l1, l2, ?_, ?_, hle⟩
        · rw [List.cons_append, ← hdec]
        · intro q hq
          rcases List.mem_cons.mp hq with hq | hq
          · rw [hq]; exact lt_of_lt_of_le hy hyr
          · exact hlt q hq
      · have hstep : (y :: ys).foldl pyMaxStep acc = ys.foldl pyMaxStep acc := by
          simp [pyMaxStep, if_neg hy]
        obtain ⟨l1, l2, hdec, hlt, hle⟩ := ih acc
        rw [hstep]
        cases l1 with
        | nil =>
            have hr : acc = ys.foldl pyMaxStep acc := by
              simpa using congrArg (fun l => l.headD acc) hdec
            have hys : ys = l2 := by
              simpa using congrArg List.tail hdec
            refine ⟨[], y :: ys, by rw [List.nil_append, ← hr], by simp, ?_⟩
            intro q hq
            rcases List.mem_cons.mp hq with hq | hq
            · rw [hq, ← hr]; exact le_of_not_lt hy
            · rw [hys] at hq; exact hle q hq
        | cons a l1t =>
            have ha : acc = a := by
              simpa using congrArg (fun l => l.headD acc) hdec
            have hys : ys = l1t ++ (ys.foldl pyMaxStep acc) :: l2 := by
              simpa using congrArg List.tail hdec
            have hacc : acc.2 < (ys.foldl pyMaxStep acc).2 := by
              have h1 : a.2 < (ys.foldl pyMaxStep acc).2 := hlt a (by simp)
              rw [← ha] at h1
              exact h1
            refine ⟨acc :: y :: l1t, l2, ?_, ?_, hle⟩
            · rw [List.cons_append, List.cons_append, ← hys]
            · intro q hq
              rcases List.mem_cons.mp hq with hq | hq
              · rw [hq]; exact hacc
              · rcases List.mem_cons.mp hq with hq | hq
                · rw [hq]
                  exact lt_of_le_of_lt (le_of_not_lt hy) hacc
                · exact hlt q (List.mem_cons_of_mem a hq)

/-- C6: on a non-empty filtered list, `max_temp_delta` returns the date
of the record with maximal `temp_delta`, ties broken in favour of the
first record in iteration order (everything before the winner is strictly
smaller, everything after is at most it), with the winning delta rounded
to 14 decimal digits. -/
theorem max_temp_delta_first_max (records : List Date) (year month : Option ℤ)
    (h : tdeltasOf records year month ≠ []) :
    ∃ p l1 l2,
      max_temp_delta records year month = Outcome.ok (p.1, roundTo14 p.2)
        ∧ tdeltasOf records year month = l1 ++ p :: l2
        ∧ (∀ q ∈ l1, q.2 < p.2)
        ∧ (∀ q ∈ l2, q.2 ≤ p.2) := by
  cases htd : tdeltasOf records year month with
  | nil => exact absurd htd h
  | cons x xs =>
      obtain ⟨l1, l2, hdec, hlt, hle⟩ := foldl_pyMaxStep_first xs x
      refine ⟨xs.foldl pyMaxStep x, l1, l2, ?_, hdec, hlt, hle⟩
      simp [max_temp_delta, maxStage, htd, pyMaxBySnd]

/-- Witness for `max_temp_delta_first_max`: the spec's example deltas
`[5.0, 12.3456789012345, 12.3456789012340]` on 2015-01-01..03 restricted
to year 2015. -/
theorem max_temp_delta_first_max_witness :
    tdeltasOf
        [⟨⟨2015, 1, 1⟩, 0, 0, 5, 0⟩,
         ⟨⟨2015, 1, 2⟩, 0, 0, 12.3456789012345, 0⟩,
         ⟨⟨2015, 1, 3⟩, 0, 0, 12.3456789012340, 0⟩] (some 2015) none ≠ []
      ∧ ∃ p l1 l2,
          max_temp_delta
              [⟨⟨2015, 1, 1⟩, 0, 0, 5, 0⟩,
               ⟨⟨2015, 1, 2⟩, 0, 0, 12.3456789012345, 0⟩,
               ⟨⟨2015, 1, 3⟩, 0, 0, 12.3456789012340, 0⟩] (some 2015) none =
            Outcome.ok (p.1, roundTo14 p.2)
            ∧ tdeltasOf
                [⟨⟨2015, 1, 1⟩, 0, 0, 5, 0⟩,
                 ⟨⟨2015, 1, 2⟩, 0, 0, 12.3456789012345, 0⟩,
                 ⟨⟨2015, 1, 3⟩, 0, 0, 12.3456789012340, 0⟩] (some 2015) none =
              l1 ++ p :: l2
            ∧ (∀ q ∈ l1, q.2 < p.2)
            ∧ (∀ q ∈ l2, q.2 ≤ p.2) := by
  have hne : tdeltasOf
      [⟨⟨2015, 1, 1⟩, 0, 0, 5, 0⟩,
       ⟨⟨2015, 1, 2⟩, 0, 0, 12.3456789012345, 0⟩,
       ⟨⟨2015, 1, 3⟩, 0, 0, 12.3456789012340, 0⟩] (some 2015) none ≠ [] := by
    simp [tdeltasOf]
  exact ⟨hne, max_temp_delta_first_max _ (some 2015) none hne⟩

/-- Incrementing the count of key `y` changes no keys. -/
theorem keys_map_inc (t : List (ℤ × ℕ)) (y : ℤ) :
    (t.map (fun p => if p.1 = y then (p.1, p.2 + 1) else p)).map Prod.fst =
      t.map Prod.fst := by
  induction t with
  | nil => rfl
  | cons p t ih =>
      by_cases hp : p.1 = y <;> simp [hp, ih]

/-- Incrementing the count of an absent key is the identity. -/
theorem map_inc_of_not_mem (t : List (ℤ × ℕ)) (y : ℤ)
    (hy : y ∉ t.map Prod.fst) :
    t.map (fun p => if p.1 = y then (p.1, p.2 + 1) else p) = t := by
  induction t with
  | nil => rfl
  | cons p t ih =>
      simp only [List.map_cons, List.mem_cons] at hy
      push_neg at hy
      have hne : ¬ p.1 = y := fun hc => hy.1 hc.symm
      simp only [List.map_cons, if_neg hne, ih hy.2]

/-- Incrementing the count of a present key (keys distinct) raises the
total count by one. -/
theorem sum_map_inc_of_mem (t : List (ℤ × ℕ)) (y : ℤ)
    (hnd : (t.map Prod.fst).Nodup) (hy : y ∈ t.map Prod.fst) :
    ((t.map (fun p => if p.1 = y then (p.1, p.2 + 1) else p)).map
        Prod.snd).sum = (t.map Prod.snd).sum + 1 := by
  induction t with
  | nil => simp at hy
  | cons p t ih =>
      simp only [List.map_cons, List.nodup_cons] at hnd
      rcases List.mem_cons.mp hy with hy1 | hy1
      · have hnot : y ∉ t.map Prod.fst := hy1 ▸ hnd.1
        simp only [List.map_cons, if_pos hy1.symm, map_inc_of_not_mem t y hnot,
          List.sum_cons]
        omega
      · have hne : ¬ p.1 = y := by
          intro hc
          exact hnd.1 (hc.symm ▸ hy1)
        simp only [List.map_cons, if_neg hne, List.sum_cons, ih hnd.2 hy1]
        omega

/-- Membership test used by `bump` agrees with key membership. -/
theorem bump_test_iff (t : List (ℤ × ℕ)) (y : ℤ) :
    t.any (fun p => p.1 = y) = true ↔ y ∈ t.map Prod.fst := by
  simp only [List.any_eq_true, List.mem_map, decide_eq_true_eq]

/-- `bump` raises the total count by one (keys distinct). -/
theorem bump_sum (t : List (ℤ × ℕ)) (y : ℤ)
    (hnd : (t.map Prod.fst).Nodup) :
    ((bump t y).map Prod.snd).sum = (t.map Prod.snd).sum + 1 := by
  unfold bump
  by_cases hm : y ∈ t.map Prod.fst
  · rw [if_pos ((bump_test_iff t y).mpr hm)]
    exact sum_map_inc_of_mem t y hnd hm
  · rw [if_neg (fun hc => hm ((bump_test_iff t y).mp hc))]
    simp

/-- `bump` on a present key keeps the key list. -/
theorem bump_keys_mem (t : List (ℤ × ℕ)) (y : ℤ)
    (hm : y ∈ t.map Prod.fst) :
    (bump t y).map Prod.fst = t.map Prod.fst := by
  unfold bump
  rw [if_pos ((bump_test_iff t y).mpr hm)]
  exact keys_map_inc t y

/-- `bump` on an absent key appends it to the key list. -/
theorem bump_keys_not_mem (t : List (ℤ × ℕ)) (y : ℤ)
    (hm : y ∉ t.map Prod.fst) :
    (bump t y).map Prod.fst = t.map Prod.fst ++ [y] := by
  unfold bump
  rw [if_neg (fun hc => hm ((bump_test_iff t y).mp hc))]
  simp

/-- `bump` preserves distinctness of keys. -/
theorem bump_keys_nodup (t : List (ℤ × ℕ)) (y : ℤ)
    (hnd : (t.map Prod.fst).Nodup) :
    ((bump t y).map Prod.fst).Nodup := by
  by_cases hm : y ∈ t.map Prod.fst
  · rw [bump_keys_mem t y hm]; exact hnd
  · rw [bump_keys_not_mem t y hm]
    simp [List.nodup_append, hnd, hm]

/-- The `year_days` fold keeps keys distinct. -/
theorem foldl_bump_nodup (ys : List ℤ) :
    ∀ t : List (ℤ × ℕ), (t.map Prod.fst).Nodup →
      ((ys.foldl bump t).map Prod.fst).Nodup := by
  induction ys with
  | nil => intro t h; simpa using h
  | cons y ys ih =>
      intro t h
      rw [List.foldl_cons]
      exact ih (bump t y) (bump_keys_nodup t y h)

/-- The `year_days` fold adds one to the total count per element. -/
theorem foldl_bump_sum (ys : List ℤ) :
    ∀ t : List (ℤ × ℕ), (t.map Prod.fst).Nodup →
      ((ys.foldl bump t).map Prod.snd).sum =
        (t.map Prod.snd).sum + ys.length := by
  induction ys with
  | nil => intro t h; simp
  | cons y ys ih =>
      intro t h
      rw [List.foldl_cons, ih (bump t y) (bump_keys_nodup t y h),
        bump_sum t y h, List.length_cons]
      omega

/-- The key set after the `year_days` fold is the old key set united with
the elements seen. -/
theorem foldl_bump_keys_toFinset (ys : List ℤ) :
    ∀ t : List (ℤ × ℕ),
      ((ys.foldl bump t).map Prod.fst).toFinset =
        (t.map Prod.fst).toFinset ∪ ys.toFinset := by
  induction ys with
  | nil => intro t; simp
  | cons y ys ih =>
      intro t
      rw [List.foldl_cons, ih (bump t y)]
      by_cases hm : y ∈ t.map Prod.fst
      · rw [bump_keys_mem t y hm]
        ext a
        simp only [Finset.mem_union, List.mem_toFinset, List.toFinset_cons,
          Finset.mem_insert]
        constructor
        · rintro (ha | ha)
          · exact Or.inl ha
          · exact Or.inr (Or.inr ha)
        · rintro (ha | ha | ha)
          · exact Or.inl ha
          · exact Or.inl (ha ▸ hm)
          · exact Or.inr ha
      · rw [bump_keys_not_mem t y hm]
        ext a
        simp only [Finset.mem_union, List.mem_toFinset, List.toFinset_cons,
          Finset.mem_insert, List.mem_append, List.mem_singleton]
        tauto

/-- `len(year_days.keys())` is the number of distinct elements. -/
theorem tally_length (ys : List ℤ) : (tally ys).length = ys.toFinset.card := by
  have hnd : ((tally ys).map Prod.fst).Nodup :=
    foldl_bump_nodup ys [] (by simp)
  have hfs : ((tally ys).map Prod.fst).toFinset = ys.toFinset := by
    have h := foldl_bump_keys_toFinset ys []
    simpa [tally] using h
  calc (tally ys).length = ((tally ys).map Prod.fst).length :=
        (List.length_map _ _).symm
    _ = ((tally ys).map Prod.fst).toFinset.card :=
        (List.toFinset_card_of_nodup hnd).symm
    _ = ys.toFinset.card := by rw [hfs]

/-- `sum(year_days.values())` is the number of elements tallied. -/
theorem tally_sum (ys : List ℤ) :
    ((tally ys).map Prod.snd).sum = ys.length := by
  have h := foldl_bump_sum ys [] (by simp)
  simpa [tally] using h

/-- Occurrence count of a year in the mapped list is the number of
records of that year. -/
theorem count_map_year (F : List Date) (y : ℤ) :
    (F.map (fun d => d.date.year)).count y =
      (F.filter (fun d => d.date.year = y)).length := by
  induction F with
  | nil => rfl
  | cons d F ih =>
      by_cases hd : d.date.year = y
      · simp [List.count_cons, List.filter_cons, hd, ih]
      · simp [List.count_cons, List.filter_cons, hd, ih]

/-- C5: with at least one positive-precipitation record,
`days_of_precip` returns the sum over each calendar year of the count of
filtered records in that year, divided by the number of distinct years
present among the filtered records. -/
theorem days_of_precip_formula (records : List Date)
    (h : records.filter (fun d => 0 < d.total_precipitation) ≠ []) :
    days_of_precip records =
      Outcome.ok
        ((∑ y in ((records.filter (fun d => 0 < d.total_precipitation)).map
            (fun d => d.date.year)).toFinset,
            (((records.filter (fun d => 0 < d.total_precipitation)).filter
              (fun d => d.date.year = y)).length : ℚ))
          / (((records.filter (fun d => 0 < d.total_precipitation)).map
              (fun d => d.date.year)).toFinset.card : ℚ)) := by
  have hmap : (((records.filter (fun d => 0 < d.total_precipitation)).map
        (fun d => d.date)).map (fun d => d.year)) =
      ((records.filter (fun d => 0 < d.total_precipitation)).map
        (fun d => d.date.year)) := by
    rw [List.map_map]
    rfl
  simp only [days_of_precip, hmap]
  set F := records.filter (fun d => 0 < d.total_precipitation) with hF
  set ys := F.map (fun d => d.date.year) with hys
  have hysne : ys ≠ [] := by
    rw [hys]
    intro hc
    exact h (List.map_eq_nil_iff.mp hc)
  have hcard : ys.toFinset.card ≠ 0 := by
    rcases List.exists_mem_of_ne_nil ys hysne with ⟨a, ha⟩
    exact Finset.card_ne_zero_of_mem (List.mem_toFinset.mpr ha)
  have hne0 : ¬ (tally ys).length = 0 := by
    rw [tally_length ys]
    exact hcard
  have hcast : (List.map (fun p => ((p.2 : ℕ) : ℚ)) (tally ys)).sum =
      ((((tally ys).map Prod.snd).sum : ℕ) : ℚ) := by
    rw [Nat.cast_list_sum, List.map_map]
    rfl
  have hnum : ∑ y in ys.toFinset,
      ((F.filter (fun d => d.date.year = y)).length : ℚ) = (ys.length : ℚ) := by
    have hcount : ∑ a in ys.toFinset, ys.count a = ys.length := by
      have hm := Multiset.toFinset_sum_count_eq (ys : Multiset ℤ)
      simpa using hm
    have hnat : ∑ y in ys.toFinset,
        (F.filter (fun d => d.date.year = y)).length = ys.length := by
      rw [← hcount]
      apply Finset.sum_congr rfl
      intro y _
      rw [hys]
      exact (count_map_year F y).symm
    exact_mod_cast hnat
  rw [if_neg hne0, hcast, tally_sum ys, tally_length ys, hnum]

/-- Witness for `days_of_precip_formula`: three wet days in 2015 and two
in 2016 give the spec's example average `5/2 = 2.5`. -/
theorem days_of_precip_formula_witness :
    days_of_precip
        [⟨⟨2015, 1, 1⟩, 1, 0, 5, 1⟩, ⟨⟨2015, 1, 2⟩, 1, 0, 5, 1⟩,
         ⟨⟨2015, 1, 3⟩, 1, 0, 5, 1⟩, ⟨⟨2016, 1, 1⟩, 1, 0, 5, 1⟩,
         ⟨⟨2016, 1, 2⟩, 1, 0, 5, 1⟩, ⟨⟨2017, 1, 1⟩, 0, 0, 5, 1⟩] =
      Outcome.ok (5 / 2) := by
  have hne : ([⟨⟨2015, 1, 1⟩, 1, 0, 5, 1⟩, ⟨⟨2015, 1, 2⟩, 1, 0, 5, 1⟩,
      ⟨⟨2015, 1, 3⟩, 1, 0, 5, 1⟩, ⟨⟨2016, 1, 1⟩, 1, 0, 5, 1⟩,
      ⟨⟨2016, 1, 2⟩, 1, 0, 5, 1⟩, ⟨⟨2017, 1, 1⟩, 0, 0, 5, 1⟩] :
        List Date).filter (fun d => 0 < d.total_precipitation) ≠ [] := by
    simp [Date.total_precipitation]
  have hthm := days_of_precip_formula
    [⟨⟨2015, 1, 1⟩, 1, 0, 5, 1⟩, ⟨⟨2015, 1, 2⟩, 1, 0, 5, 1⟩,
     ⟨⟨2015, 1, 3⟩, 1, 0, 5, 1⟩, ⟨⟨2016, 1, 1⟩, 1, 0, 5, 1⟩,
     ⟨⟨2016, 1, 2⟩, 1, 0, 5, 1⟩, ⟨⟨2017, 1, 1⟩, 0, 0, 5, 1⟩] hne
  rw [hthm]
  norm_num [Date.total_precipitation, List.filter]
